import Mathlib

/-!
Verification of the Live-Speech-Translator backend (`server/app.py`).

The development shallowly embeds the server's shared session state, the
control-plane operations `start` / `stop` / `status`, the background
worker's per-iteration behaviour and exit paths, the language-code
normalizers, and the static-file route.  Concurrency is modelled as a
labelled transition system: each label is one atomic lock-protected
critical section of the Python code (the control operations and the
worker's individual state mutations), and traces are arbitrary
interleavings of those sections.
-/

/-- Python `str.strip()`: drop whitespace from both ends. -/
def pyStrip (s : String) : String :=
  String.mk (((s.data.dropWhile Char.isWhitespace).reverse.dropWhile
    Char.isWhitespace).reverse)

/-- Python `str.lower()` (ASCII-sufficient for the language tables). -/
def pyLower (s : String) : String :=
  String.mk (s.data.map Char.toLower)

/-- Python `dict.get(k, default=None)` over an association list. -/
def dictGet (m : List (String × String)) (k : String) : Option String :=
  match m with
  | [] => none
  | (k2, v) :: rest => if k2 = k then some v else dictGet rest k

/-- `SR_LANG_MAP` from app.py: UI source language -> Google Speech
Recognition locale, as an association list (all keys distinct). -/
def SR_LANG_MAP : List (String × String) :=
  [("en", "en-US"), ("hi", "hi-IN"), ("gu", "gu-IN"), ("cn", "zh-CN"),
   ("zh", "zh-CN"), ("zh-cn", "zh-CN"), ("zh-CN", "zh-CN"), ("ko", "ko-KR")]

/-- `TR_LANG_MAP` from app.py: frontend code -> deep-translator code. -/
def TR_LANG_MAP : List (String × String) :=
  [("en", "en"), ("hi", "hi"), ("gu", "gu"), ("cn", "zh-CN"),
   ("zh", "zh-CN"), ("zh-cn", "zh-CN"), ("zh-CN", "zh-CN"), ("ko", "ko")]

/-- `normalize_sr_lang` (app.py lines 71-73): strip the input, then
`SR_LANG_MAP.get(c, SR_LANG_MAP.get(c.lower(), "en-US"))`. -/
def normalize_sr_lang (code : String) : String :=
  let c := pyStrip code
  match dictGet SR_LANG_MAP c with
  | some v => v
  | none =>
    match dictGet SR_LANG_MAP (pyLower c) with
    | some v => v
    | none => "en-US"

/-- `normalize_tr_lang` (app.py lines 76-78). -/
def normalize_tr_lang (code : String) : String :=
  let c := pyStrip code
  match dictGet TR_LANG_MAP c with
  | some v => v
  | none =>
    match dictGet TR_LANG_MAP (pyLower c) with
    | some v => v
    | none => "en"

/-- The shared session dictionary `state` (app.py lines 34-41).  Worker
threads and stop events are identified by the `Nat` id allocated when
they are created together in `start`; `thread`/`stop_event` hold that id
or are `None`. -/
structure Sess where
  running : Bool
  thread : Option Nat
  stop_event : Option Nat
  translated_text : String
  source_lang : Option String
  target_lang : Option String
deriving Repr, DecidableEq

/-- The initial value of `state` (app.py lines 34-41). -/
def initialState : Sess :=
  { running := false,
    thread := none,
    stop_event := none,
    translated_text := "Waiting for speech...",
    source_lang := none,
    target_lang := none }

/-- The worker's clean-exit block (app.py lines 167-173): on leaving the
listening loop it clears `running`, `thread`, `stop_event`, and sets
`translated_text` to "Stopped." only when it is empty (Python falsiness
of `state["translated_text"]`). -/
def cleanExit (s : Sess) : Sess :=
  { s with
    running := false,
    thread := none,
    stop_event := none,
    translated_text :=
      if s.translated_text = "" then "Stopped." else s.translated_text }

/-- The worker's fatal-init exit blocks (app.py lines 94-100 and
110-116): publish the error message, clear `running`, `thread`,
`stop_event`. -/
def initFailExit (msg : String) (s : Sess) : Sess :=
  { s with
    translated_text := msg,
    running := false,
    thread := none,
    stop_event := none }

/-- Outcome of one microphone capture attempt (app.py lines 122-132). -/
inductive CaptureRes where
  | timeout
  | capErr (e : String)
  | audio
deriving Repr, DecidableEq

/-- Outcome of one recognition request (app.py lines 135-148). -/
inductive RecogRes where
  | ok (transcript : String)
  | unknown
  | reqErr (e : String)
  | srErr (e : String)
deriving Repr, DecidableEq

/-- The translation block (app.py lines 154-160): try the exact pair;
on any failure retry with `source="auto"`; if the fallback also fails
with exception `e`, produce `f"{transcript} (translation unavailable: {e})"`.
The provider outcomes are environment inputs (`Except` values). -/
def translateResult (exact fallback : Except String String)
    (transcript : String) : String :=
  match exact with
  | .ok t => t
  | .error _ =>
    match fallback with
    | .ok t => t
    | .error e => transcript ++ " (translation unavailable: " ++ e ++ ")"

/-- One pass of the worker's listening loop body (app.py lines 121-165),
given the environment's capture / recognition / translation outcomes.
Returns the updated session and the number of milliseconds slept by this
pass (`time.sleep` calls: 0.3s on capture error, 1s on recognition API
error, 0.5s on unexpected recognition error, 0.05s after publishing). -/
def workerIterate (cap : CaptureRes) (rec : RecogRes)
    (exact fallback : Except String String) (s : Sess) : Sess × Nat :=
  match cap with
  | .timeout => (s, 0)
  | .capErr e => ({ s with translated_text := "Mic capture error: " ++ e }, 300)
  | .audio =>
    match rec with
    | .unknown => (s, 0)
    | .reqErr e =>
      ({ s with translated_text := "Speech recognition API error: " ++ e }, 1000)
    | .srErr e =>
      ({ s with translated_text := "Unexpected SR error: " ++ e }, 500)
    | .ok transcript =>
      if transcript = "" then (s, 0)
      else ({ s with translated_text := translateResult exact fallback transcript }, 50)

/-- Whole-process state: the session dictionary plus the bookkeeping the
embedding needs to speak about threads and events as objects — `nextId`
allocates fresh ids for the (worker, stop_event) pair created in
`start`, `active` lists the ids of worker threads whose function has not
yet returned (`Thread.is_alive`), and `setTokens` lists the ids of stop
events on which `.set()` has been called. -/
structure Sys where
  sess : Sess
  nextId : Nat
  active : List Nat
  setTokens : List Nat
deriving Repr, DecidableEq

/-- Process state at startup: initial session, no workers, no events. -/
def initSys : Sys :=
  { sess := initialState, nextId := 0, active := [], setTokens := [] }

/-- Response of the `/start` route (app.py lines 187 and 204): message,
`translatedText`, HTTP status. -/
structure StartResp where
  message : String
  translatedText : String
  code : Nat
deriving Repr, DecidableEq

/-- Response of the `/stop` route (app.py lines 211 and 227). -/
structure StopResp where
  message : String
  code : Nat
deriving Repr, DecidableEq

/-- Response of the `/status` route (app.py lines 232-238). -/
structure StatusResp where
  running : Bool
  translatedText : String
  sourceLang : Option String
  targetLang : Option String
  code : Nat
deriving Repr, DecidableEq

/-- The `start` route handler (app.py lines 179-204).  Under the lock:
if already running, return the current status unchanged; otherwise
create a fresh stop event and worker thread (one fresh id for the pair),
mark running, store the raw languages, set the starting banner, and
launch the worker. -/
def startOp (source_lang target_lang : String) (sys : Sys) : Sys × StartResp :=
  if sys.sess.running then
    (sys, { message := "Already running",
            translatedText := sys.sess.translated_text, code := 200 })
  else
    let id := sys.nextId
    let sess : Sess :=
      { running := true,
        thread := some id,
        stop_event := some id,
        translated_text := "Starting speech recognition...",
        source_lang := some source_lang,
        target_lang := some target_lang }
    ({ sess := sess,
       nextId := id + 1,
       active := id :: sys.active,
       setTokens := sys.setTokens },
     { message := "Listening and translating...",
       translatedText := sess.translated_text, code := 200 })

/-- A worker thread `w` returning from `listen_and_translate` through the
clean-exit block (app.py lines 167-173): the thread function ends (so `w`
leaves `active`) after running `cleanExit` on the session. -/
def workerExitCore (w : Nat) (sys : Sys) : Sys :=
  { sys with
    sess := cleanExit sys.sess,
    active := sys.active.filter (fun i => i ≠ w) }

/-- The `stop` route handler (app.py lines 207-227).  Under the lock: if
not running, return "Not running" unchanged.  Otherwise read the held
event and thread, then (outside the lock) set the event and join the
thread with a 5-second timeout; `joinOk` is the environment's choice of
whether the worker reached its exit within that bound (if so, its
clean-exit block runs before `stop` proceeds).  Finally, under the lock
again, force `running := false`, clear the handles and publish
"Stopped." regardless. -/
def stopOp (joinOk : Bool) (sys : Sys) : Sys × StopResp :=
  if sys.sess.running then
    let ev := sys.sess.stop_event
    let wkr := sys.sess.thread
    let sys1 :=
      match ev with
      | some i => { sys with setTokens := i :: sys.setTokens }
      | none => sys
    let sys2 :=
      match joinOk, wkr with
      | true, some w =>
        if w ∈ sys1.active then workerExitCore w sys1 else sys1
      | _, _ => sys1
    ({ sys2 with
       sess :=
        { sys2.sess with
          running := false,
          thread := none,
          stop_event := none,
          translated_text := "Stopped." } },
     { message := "Stopped.", code := 200 })
  else
    (sys, { message := "Not running", code := 200 })

/-- The `status` route handler (app.py lines 230-238): a locked snapshot. -/
def statusOf (sys : Sys) : StatusResp :=
  { running := sys.sess.running,
    translatedText := sys.sess.translated_text,
    sourceLang := sys.sess.source_lang,
    targetLang := sys.sess.target_lang,
    code := 200 }

deriving instance DecidableEq for Except

/-- One atomic event of the process: a control-plane request or one
lock-protected action of some worker thread `w`.  Worker actions carry
the environment's outcomes (microphone, recognizer, translator) as
parameters. -/
inductive Step where
  | start (source_lang target_lang : String)
  | stop (joinOk : Bool)
  | workerInitFail (w : Nat) (micPhase : Bool) (e : String)
  | workerAnnounce (w : Nat) (srLoc trSrc trTgt : String)
  | workerIter (w : Nat) (cap : CaptureRes) (rec : RecogRes)
      (exact fallback : Except String String)
  | workerExit (w : Nat)
deriving Repr, DecidableEq

/-- Effect of one step on the process state.  Worker steps apply only to
a live thread `w`; loop steps additionally require `w`'s own stop event
to be unset (app.py line 121), and the exit step requires it set. -/
def applyStep (sys : Sys) : Step → Sys
  | .start s t => (startOp s t sys).1
  | .stop joinOk => (stopOp joinOk sys).1
  | .workerInitFail w micPhase e =>
    if w ∈ sys.active then
      { sys with
        sess := initFailExit
          ((if micPhase then "Microphone error: "
            else "Audio initialization error: ") ++ e) sys.sess,
        active := sys.active.filter (fun i => i ≠ w) }
    else sys
  | .workerAnnounce w srLoc trSrc trTgt =>
    if w ∈ sys.active then
      { sys with
        sess :=
          { sys.sess with
            translated_text :=
              "Listening... (SR: " ++ srLoc ++ ", TR: " ++ trSrc ++ " -> "
                ++ trTgt ++ ")" } }
    else sys
  | .workerIter w cap rec exact fallback =>
    if w ∈ sys.active ∧ w ∉ sys.setTokens then
      { sys with sess := (workerIterate cap rec exact fallback sys.sess).1 }
    else sys
  | .workerExit w =>
    if w ∈ sys.active ∧ w ∈ sys.setTokens then workerExitCore w sys else sys

/-- The process state after a trace of steps from startup. -/
def run (l : List Step) : Sys :=
  l.foldl applyStep initSys

/-- A trace is prompt when every `stop` in it observed the worker's exit
within the join timeout (`joinOk = true`): no orphaned worker survives a
`stop` call. -/
def stepOk : Step → Bool
  | .stop joinOk => joinOk
  | _ => true

/-- The static extension allow-list `ALLOWED_STATIC_EXTS` (app.py lines
253-257). -/
def ALLOWED_STATIC_EXTS : List String :=
  [".css", ".js", ".mjs", ".map",
   ".png", ".jpg", ".jpeg", ".gif", ".svg", ".webp", ".ico",
   ".woff", ".woff2", ".ttf", ".otf"]

/-- Lexical path resolution, as `(FRONTEND_DIR / filename).resolve()`
normalizes the joined path: "." and empty components vanish, ".."
removes the last component (at the filesystem root it stays put), and a
normal component is appended. -/
def resolveComps (acc : List String) : List String → List String
  | [] => acc
  | c :: rest =>
    if c = "." ∨ c = "" then resolveComps acc rest
    else if c = ".." then resolveComps acc.dropLast rest
    else resolveComps (acc ++ [c]) rest

/-- Success of `target.relative_to(FRONTEND_DIR)` (app.py line 268):
the root's components are an initial segment of the target's. -/
def isUnder (root target : List String) : Bool :=
  match root, target with
  | [], _ => true
  | _ :: _, [] => false
  | r :: rs, t :: ts => if r = t then isUnder rs ts else false

/-- Split a file name at its last dot: `(before, from-the-dot-on)`. -/
def splitLastDot : List Char → Option (List Char × List Char)
  | [] => none
  | c :: rest =>
    match splitLastDot rest with
    | some (b, a) => some (c :: b, a)
    | none => if c = '.' then some ([], c :: rest) else none

/-- `pathlib`'s `Path.suffix` of a final path component: the portion
from the last dot on, provided that dot is neither the name's first nor
last character; otherwise empty. -/
def suffixOf (name : String) : String :=
  match splitLastDot name.data with
  | some (b, a) => if b ≠ [] ∧ 2 ≤ a.length then String.mk a else ""
  | none => ""

/-- Response of the `/<path:filename>` route. -/
inductive StaticResp where
  | file (target : List String)
  | forbidden
  | notFound
deriving Repr, DecidableEq

/-- `serve_static_file` (app.py lines 259-275), with the filesystem
abstracted: `root` is `FRONTEND_DIR` as components from the filesystem
root, `fname` the request path's components, `isFile` the predicate
"this resolved path is an existing regular file".  API-reserved names
get 404; a resolved target outside the root gets 403; an existing file
with an allow-listed suffix is served; anything else gets 404. -/
def serve_static_file (root fname : List String)
    (isFile : List String → Bool) : StaticResp :=
  if fname = ["start"] ∨ fname = ["stop"] ∨ fname = ["status"] then .notFound
  else
    let target := resolveComps root fname
    if isUnder root target then
      if isFile target
          && ALLOWED_STATIC_EXTS.any (fun e => e = suffixOf (target.getLastD "")) then
        .file target
      else .notFound
    else .forbidden

/-- The session invariant claimed by the specification, stated over the
process state: `running` is true exactly when one worker thread is
active and the stop event handle is non-null. -/
def claimedInvariant (sys : Sys) : Prop :=
  sys.sess.running = true ↔
    (sys.active.length = 1 ∧ sys.sess.stop_event ≠ none)

instance (sys : Sys) : Decidable (claimedInvariant sys) :=
  inferInstanceAs (Decidable (sys.sess.running = true ↔
    (sys.active.length = 1 ∧ sys.sess.stop_event ≠ none)))

/-- Inductive strengthening of the session invariant, provable along
prompt traces: ids are allocated below `nextId`; when running, the
thread and event handles hold one common live id whose event is unset;
when not running, no worker is live and both handles are null. -/
def goodSys (sys : Sys) : Prop :=
  (∀ i ∈ sys.active, i < sys.nextId) ∧
  (∀ i ∈ sys.setTokens, i < sys.nextId) ∧
  (sys.sess.running = true →
    ∃ id, sys.sess.thread = some id ∧ sys.sess.stop_event = some id ∧
      sys.active = [id] ∧ id ∉ sys.setTokens) ∧
  (sys.sess.running = false →
    sys.active = [] ∧ sys.sess.thread = none ∧ sys.sess.stop_event = none)

/-- A worker iteration never touches any session field other than
`translated_text`. -/
theorem workerIterate_fields (cap : CaptureRes) (rec : RecogRes)
    (exact fallback : Except String String) (s : Sess) :
    (workerIterate cap rec exact fallback s).1.running = s.running
    ∧ (workerIterate cap rec exact fallback s).1.thread = s.thread
    ∧ (workerIterate cap rec exact fallback s).1.stop_event = s.stop_event
    ∧ (workerIterate cap rec exact fallback s).1.source_lang = s.source_lang
    ∧ (workerIterate cap rec exact fallback s).1.target_lang = s.target_lang := by
  cases cap <;> cases rec <;> simp only [workerIterate] <;> (try split) <;> simp

/-- `goodSys` holds at process startup. -/
theorem goodSys_init : goodSys initSys := by
  refine ⟨?_, ?_, ?_, ?_⟩ <;> simp [goodSys, initSys, initialState]

/-- `goodSys` is preserved by every prompt step. -/
theorem goodSys_applyStep (sys : Sys) (st : Step)
    (h : goodSys sys) (hok : stepOk st = true) : goodSys (applyStep sys st) := by
  obtain ⟨hA, hT, hRt, hRf⟩ := h
  cases st with
  | start s t =>
    by_cases hr : sys.sess.running = true
    · have heq : applyStep sys (.start s t) = sys := by
        simp [applyStep, startOp, hr]
      rw [heq]
      exact ⟨hA, hT, hRt, hRf⟩
    · obtain ⟨hact, hth, hev⟩ := hRf (Bool.not_eq_true _ ▸ hr)
      have heq : applyStep sys (.start s t) =
          { sess :=
              { running := true,
                thread := some sys.nextId,
                stop_event := some sys.nextId,
                translated_text := "Starting speech recognition...",
                source_lang := some s,
                target_lang := some t },
            nextId := sys.nextId + 1,
            active := sys.nextId :: sys.active,
            setTokens := sys.setTokens } := by
        simp [applyStep, startOp, hr]
      rw [heq]
      refine ⟨?_, ?_, ?_, ?_⟩
      · intro i hi
        replace hi : i ∈ sys.nextId :: sys.active := hi
        show i < sys.nextId + 1
        rcases List.mem_cons.mp hi with h1 | h1
        · omega
        · have := hA i h1
          omega
      · intro i hi
        replace hi : i ∈ sys.setTokens := hi
        show i < sys.nextId + 1
        have := hT i hi
        omega
      · intro _
        refine ⟨sys.nextId, rfl, rfl, ?_, ?_⟩
        · show sys.nextId :: sys.active = [sys.nextId]
          rw [hact]
        · intro hmem
          replace hmem : sys.nextId ∈ sys.setTokens := hmem
          have := hT sys.nextId hmem
          omega
      · intro hcontra
        exact Bool.noConfusion (show true = false from hcontra)
  | stop joinOk =>
    have hj : joinOk = true := hok
    subst hj
    by_cases hr : sys.sess.running = true
    · obtain ⟨id, hth, hev, hact, hnt⟩ := hRt hr
      have hidlt : id < sys.nextId :=
        hA id (by rw [hact]; exact List.mem_singleton.mpr rfl)
      have heq : applyStep sys (.stop true) =
          { sess :=
              { running := false,
                thread := none,
                stop_event := none,
                translated_text := "Stopped.",
                source_lang := sys.sess.source_lang,
                target_lang := sys.sess.target_lang },
            nextId := sys.nextId,
            active := [],
            setTokens := id :: sys.setTokens } := by
        simp only [applyStep, stopOp, if_pos hr, hth, hev]
        have hmem : id ∈ sys.active := by
          rw [hact]
          exact List.mem_singleton.mpr rfl
        simp [workerExitCore, cleanExit, hmem, hact]
      rw [heq]
      refine ⟨?_, ?_, ?_, ?_⟩
      · intro i hi
        replace hi : i ∈ ([] : List Nat) := hi
        exact absurd hi (List.not_mem_nil i)
      · intro i hi
        replace hi : i ∈ id :: sys.setTokens := hi
        show i < sys.nextId
        rcases List.mem_cons.mp hi with h1 | h1
        · omega
        · exact hT i h1
      · intro hcontra
        exact Bool.noConfusion (show false = true from hcontra)
      · intro _
        exact ⟨rfl, rfl, rfl⟩
    · have heq : applyStep sys (.stop true) = sys := by
        simp [applyStep, stopOp, hr]
      rw [heq]
      exact ⟨hA, hT, hRt, hRf⟩
  | workerInitFail w micPhase e =>
    by_cases hw : w ∈ sys.active
    · have heq : applyStep sys (.workerInitFail w micPhase e) =
          { sys with
            sess := initFailExit
              ((if micPhase then "Microphone error: "
                else "Audio initialization error: ") ++ e) sys.sess,
            active := sys.active.filter (fun i => i ≠ w) } := by
        simp [applyStep, hw]
      rw [heq]
      refine ⟨?_, hT, ?_, ?_⟩
      · intro i hi
        replace hi : i ∈ sys.active.filter (fun i => i ≠ w) := hi
        show i < sys.nextId
        exact hA i (List.mem_of_mem_filter hi)
      · intro hcontra
        exact Bool.noConfusion (show false = true from hcontra)
      · intro _
        refine ⟨?_, rfl, rfl⟩
        show sys.active.filter (fun i => i ≠ w) = []
        by_cases hr : sys.sess.running = true
        · obtain ⟨id, -, -, hact, -⟩ := hRt hr
          have hwid : w = id := by
            rw [hact] at hw
            exact List.mem_singleton.mp hw
          subst hwid
          rw [hact]
          simp
        · obtain ⟨hact, -, -⟩ := hRf (Bool.not_eq_true _ ▸ hr)
          rw [hact]
          simp
    · have heq : applyStep sys (.workerInitFail w micPhase e) = sys := by
        simp [applyStep, hw]
      rw [heq]
      exact ⟨hA, hT, hRt, hRf⟩
  | workerAnnounce w srLoc trSrc trTgt =>
    by_cases hw : w ∈ sys.active
    · have heq : applyStep sys (.workerAnnounce w srLoc trSrc trTgt) =
          { sys with
            sess :=
              { sys.sess with
                translated_text :=
                  "Listening... (SR: " ++ srLoc ++ ", TR: " ++ trSrc ++ " -> "
                    ++ trTgt ++ ")" } } := by
        simp [applyStep, hw]
      rw [heq]
      exact ⟨hA, hT, hRt, hRf⟩
    · have heq : applyStep sys (.workerAnnounce w srLoc trSrc trTgt) = sys := by
        simp [applyStep, hw]
      rw [heq]
      exact ⟨hA, hT, hRt, hRf⟩
  | workerIter w cap rec exact fallback =>
    by_cases hw : w ∈ sys.active ∧ w ∉ sys.setTokens
    · have heq : applyStep sys (.workerIter w cap rec exact fallback) =
          { sys with sess := (workerIterate cap rec exact fallback sys.sess).1 } := by
        simp only [applyStep, if_pos hw]
      obtain ⟨hrun, hth, hev, -, -⟩ :=
        workerIterate_fields cap rec exact fallback sys.sess
      rw [heq]
      refine ⟨hA, hT, ?_, ?_⟩
      · intro hrc
        replace hrc : (workerIterate cap rec exact fallback sys.sess).1.running = true := hrc
        rw [hrun] at hrc
        obtain ⟨id, h1, h2, h3, h4⟩ := hRt hrc
        refine ⟨id, ?_, ?_, h3, h4⟩
        · show (workerIterate cap rec exact fallback sys.sess).1.thread = some id
          rw [hth]
          exact h1
        · show (workerIterate cap rec exact fallback sys.sess).1.stop_event = some id
          rw [hev]
          exact h2
      · intro hrc
        replace hrc : (workerIterate cap rec exact fallback sys.sess).1.running = false := hrc
        rw [hrun] at hrc
        obtain ⟨h1, h2, h3⟩ := hRf hrc
        refine ⟨h1, ?_, ?_⟩
        · show (workerIterate cap rec exact fallback sys.sess).1.thread = none
          rw [hth]
          exact h2
        · show (workerIterate cap rec exact fallback sys.sess).1.stop_event = none
          rw [hev]
          exact h3
    · have heq : applyStep sys (.workerIter w cap rec exact fallback) = sys := by
        simp only [applyStep, if_neg hw]
      rw [heq]
      exact ⟨hA, hT, hRt, hRf⟩
  | workerExit w =>
    by_cases hw : w ∈ sys.active ∧ w ∈ sys.setTokens
    · exfalso
      by_cases hr : sys.sess.running = true
      · obtain ⟨id, -, -, hact, hnt⟩ := hRt hr
        have hwid : w = id := by
          rw [hact] at hw
          exact List.mem_singleton.mp hw.1
        subst hwid
        exact hnt hw.2
      · obtain ⟨hact, -, -⟩ := hRf (Bool.not_eq_true _ ▸ hr)
        rw [hact] at hw
        exact (List.not_mem_nil w) hw.1
    · have heq : applyStep sys (.workerExit w) = sys := by
        simp only [applyStep, if_neg hw]
      rw [heq]
      exact ⟨hA, hT, hRt, hRf⟩

/-- `goodSys` holds after any prompt trace from any `goodSys` state. -/
theorem goodSys_foldl (l : List Step) :
    ∀ sys : Sys, goodSys sys → (∀ st ∈ l, stepOk st = true) →
      goodSys (l.foldl applyStep sys) := by
  induction l with
  | nil =>
    intro sys h _
    simpa using h
  | cons st rest ih =>
    intro sys h hok
    simp only [List.foldl_cons]
    exact ih _ (goodSys_applyStep sys st h (hok st (by simp)))
      (fun s hs => hok s (by simp [hs]))

/-- `goodSys` holds after any prompt trace from startup. -/
theorem goodSys_run (l : List Step) (h : ∀ st ∈ l, stepOk st = true) :
    goodSys (run l) :=
  goodSys_foldl l initSys goodSys_init h

/-- C1 (amended): along every trace of start/stop calls and worker steps
in which each `stop` observes the worker's exit within its bounded join
(no orphaned worker), `running = true` holds exactly when one worker
thread is active and the stop-event handle is non-null.  Without that
promptness assumption the code violates the invariant (see the
counterexample). -/
theorem session_invariant_prompt_traces (l : List Step)
    (h : ∀ st ∈ l, stepOk st = true) :
    (run l).sess.running = true ↔
      ((run l).active.length = 1 ∧ (run l).sess.stop_event ≠ none) := by
  obtain ⟨-, -, hRt, hRf⟩ := goodSys_run l h
  constructor
  · intro hr
    obtain ⟨id, -, hev, hact, -⟩ := hRt hr
    rw [hact, hev]
    simp
  · rintro ⟨hlen, hev⟩
    by_cases hr : (run l).sess.running = true
    · exact hr
    · obtain ⟨-, -, hev2⟩ := hRf (Bool.not_eq_true _ ▸ hr)
      exact absurd hev2 hev

/-- Witness for C1 at the concrete prompt trace `[start "en" "hi"]`. -/
theorem session_invariant_prompt_traces_witness :
    (run [Step.start "en" "hi"]).sess.running = true ↔
      ((run [Step.start "en" "hi"]).active.length = 1
        ∧ (run [Step.start "en" "hi"]).sess.stop_event ≠ none) :=
  session_invariant_prompt_traces [Step.start "en" "hi"] (by decide)

/-- C1 counterexample: after `start`, a `stop` whose 5-second join times
out (the worker is blocked in a provider call), and a second `start`,
the process has two live worker threads while `running = true` — the
claimed "exactly one Worker" invariant fails on this interleaving. -/
theorem session_invariant_counterexample :
    ¬ claimedInvariant
        (run [Step.start "en" "hi", Step.stop false, Step.start "en" "hi"])
    ∧ (run [Step.start "en" "hi", Step.stop false,
        Step.start "en" "hi"]).sess.running = true
    ∧ (run [Step.start "en" "hi", Step.stop false,
        Step.start "en" "hi"]).active.length = 2 := by
  decide

/-- C2: stopping while a worker runs signals the held stop event, then —
whether or not the worker exited within the bounded join (`joinOk`) —
forces `running := false`, clears both handles, publishes "Stopped.",
returns 200 "Stopped.", and a subsequent `status` reports
`running = false` with `translatedText = "Stopped."`. -/
theorem stop_while_running (sys : Sys) (joinOk : Bool)
    (h : sys.sess.running = true) :
    (stopOp joinOk sys).1.sess.running = false
    ∧ (stopOp joinOk sys).1.sess.translated_text = "Stopped."
    ∧ (stopOp joinOk sys).1.sess.thread = none
    ∧ (stopOp joinOk sys).1.sess.stop_event = none
    ∧ (∀ i, sys.sess.stop_event = some i → i ∈ (stopOp joinOk sys).1.setTokens)
    ∧ (stopOp joinOk sys).2 = { message := "Stopped.", code := 200 }
    ∧ (statusOf (stopOp joinOk sys).1).running = false
    ∧ (statusOf (stopOp joinOk sys).1).translatedText = "Stopped." := by
  rcases hev : sys.sess.stop_event with _ | i <;>
    rcases hth : sys.sess.thread with _ | w <;>
      cases joinOk <;>
        simp only [stopOp, h, hev, hth, if_true] <;>
          (try split) <;>
            simp [workerExitCore, cleanExit, statusOf]

/-- Witness for C2: stopping the freshly started session. -/
theorem stop_while_running_witness :
    (stopOp true (run [Step.start "en" "hi"])).1.sess.running = false
    ∧ (stopOp true (run [Step.start "en" "hi"])).1.sess.translated_text = "Stopped."
    ∧ (stopOp true (run [Step.start "en" "hi"])).1.sess.thread = none
    ∧ (stopOp true (run [Step.start "en" "hi"])).1.sess.stop_event = none
    ∧ (∀ i, (run [Step.start "en" "hi"]).sess.stop_event = some i →
        i ∈ (stopOp true (run [Step.start "en" "hi"])).1.setTokens)
    ∧ (stopOp true (run [Step.start "en" "hi"])).2 =
        { message := "Stopped.", code := 200 }
    ∧ (statusOf (stopOp true (run [Step.start "en" "hi"])).1).running = false
    ∧ (statusOf (stopOp true (run [Step.start "en" "hi"])).1).translatedText =
        "Stopped." :=
  stop_while_running (run [Step.start "en" "hi"]) true (by decide)

/-- C3: `start` while already running returns the current status (200,
current `latestText`) and changes nothing — no second worker is spawned;
from a stopped state with no live workers, `start` then `start` leaves
exactly one active worker, the second call being the no-op. -/
theorem start_idempotent (sys : Sys) (s t s2 t2 : String) :
    (sys.sess.running = true →
      startOp s t sys =
        (sys, { message := "Already running",
                translatedText := sys.sess.translated_text, code := 200 }))
    ∧ (sys.sess.running = false →
        ((startOp s t sys).1.sess.running = true
        ∧ (startOp s t sys).1.active.length = sys.active.length + 1
        ∧ startOp s2 t2 (startOp s t sys).1 =
            ((startOp s t sys).1,
             { message := "Already running",
               translatedText := (startOp s t sys).1.sess.translated_text,
               code := 200 })))
    ∧ (sys.sess.running = false → sys.active = [] →
        (startOp s2 t2 (startOp s t sys).1).1.active.length = 1) := by
  refine ⟨?_, ?_, ?_⟩
  · intro h
    simp [startOp, h]
  · intro h
    refine ⟨?_, ?_, ?_⟩ <;> simp [startOp, h]
  · intro h hact
    simp [startOp, h, hact]

/-- Witness for C3: the no-op branch on a running session and the
double-start from the initial state. -/
theorem start_idempotent_witness :
    (startOp "gu" "ko" (run [Step.start "en" "hi"]) =
      (run [Step.start "en" "hi"],
       { message := "Already running",
         translatedText := "Starting speech recognition...", code := 200 }))
    ∧ (startOp "gu" "ko" (startOp "en" "hi" initSys).1).1.active.length = 1 := by
  constructor
  · have h := (start_idempotent (run [Step.start "en" "hi"]) "gu" "ko" "x" "y").1
      (by decide)
    rw [h]
    rfl
  · exact (start_idempotent initSys "en" "hi" "gu" "ko").2.2 (by decide) (by decide)

/-- C4: `stop` while not running returns 200 `{message: "Not running"}`
and leaves the whole process state — `latestText` included — unchanged. -/
theorem stop_not_running (sys : Sys) (joinOk : Bool)
    (h : sys.sess.running = false) :
    stopOp joinOk sys = (sys, { message := "Not running", code := 200 }) := by
  simp [stopOp, h]

/-- Witness for C4: stopping the initial (never started) session. -/
theorem stop_not_running_witness :
    stopOp true initSys = (initSys, { message := "Not running", code := 200 }) :=
  stop_not_running initSys true (by decide)

/-- C5: a non-empty transcript is always published: the exact-pair
translation when it succeeds, else the auto-detect fallback's result
when that succeeds, else the transcript annotated with the
translation-unavailable note — never discarded. -/
theorem transcript_never_discarded (transcript : String)
    (exactTr fallbackTr : Except String String) (s : Sess)
    (h : ¬ transcript = "") :
    (workerIterate .audio (.ok transcript) exactTr fallbackTr s).1 =
      { s with translated_text := translateResult exactTr fallbackTr transcript }
    ∧ (∀ r, exactTr = .ok r → translateResult exactTr fallbackTr transcript = r)
    ∧ (∀ e r, exactTr = .error e → fallbackTr = .ok r →
        translateResult exactTr fallbackTr transcript = r)
    ∧ (∀ e e2, exactTr = .error e → fallbackTr = .error e2 →
        translateResult exactTr fallbackTr transcript =
          transcript ++ " (translation unavailable: " ++ e2 ++ ")") := by
  refine ⟨by simp [workerIterate, h], ?_, ?_, ?_⟩
  · rintro r rfl
    rfl
  · rintro e r rfl rfl
    rfl
  · rintro e e2 rfl rfl
    rfl

/-- Witness for C5: the exact pair fails, the auto-detect fallback
succeeds, and the fallback's result is what gets published. -/
theorem transcript_never_discarded_witness :
    (workerIterate .audio (.ok "hello") (.error "pair unsupported")
        (.ok "namaste") initialState).1 =
      { initialState with translated_text := "namaste" }
    ∧ translateResult (.error "pair unsupported") (.ok "namaste") "hello" =
        "namaste" := by
  have h := transcript_never_discarded "hello" (.error "pair unsupported")
    (.ok "namaste") initialState (by decide)
  refine ⟨?_, h.2.2.1 "pair unsupported" "namaste" rfl rfl⟩
  rw [h.1]
  rfl

/-- C6 (amended): the worker's clean exit atomically clears `running`,
the thread handle and the stop event, and publishes "Stopped." exactly
when `latestText` is empty at that moment; any non-empty text — terminal
or not — is left as it is.  (The claim's reading "whenever no terminal
message is set" fails: see the counterexample.) -/
theorem worker_clean_exit (sys : Sys) (w : Nat)
    (hw : w ∈ sys.active) (ht : w ∈ sys.setTokens) :
    (applyStep sys (Step.workerExit w)).sess.running = false
    ∧ (applyStep sys (Step.workerExit w)).sess.thread = none
    ∧ (applyStep sys (Step.workerExit w)).sess.stop_event = none
    ∧ w ∉ (applyStep sys (Step.workerExit w)).active
    ∧ (sys.sess.translated_text = "" →
        (applyStep sys (Step.workerExit w)).sess.translated_text = "Stopped.")
    ∧ (sys.sess.translated_text ≠ "" →
        (applyStep sys (Step.workerExit w)).sess.translated_text =
          sys.sess.translated_text) := by
  have hg : w ∈ sys.active ∧ w ∈ sys.setTokens := ⟨hw, ht⟩
  simp only [applyStep, if_pos hg]
  refine ⟨rfl, rfl, rfl, ?_, ?_, ?_⟩
  · simp [workerExitCore, List.mem_filter]
  · intro he
    simp [workerExitCore, cleanExit, he]
  · intro he
    simp [workerExitCore, cleanExit, he]

/-- Witness for C6: the orphaned first worker exits cleanly after a
timed-out stop and a restart; the handles are cleared and the non-empty
text is left alone. -/
theorem worker_clean_exit_witness :
    (applyStep (run [Step.start "en" "hi", Step.stop false])
        (Step.workerExit 0)).sess.running = false
    ∧ (applyStep (run [Step.start "en" "hi", Step.stop false])
        (Step.workerExit 0)).sess.thread = none
    ∧ (applyStep (run [Step.start "en" "hi", Step.stop false])
        (Step.workerExit 0)).sess.stop_event = none
    ∧ 0 ∉ (applyStep (run [Step.start "en" "hi", Step.stop false])
        (Step.workerExit 0)).active
    ∧ ((run [Step.start "en" "hi", Step.stop false]).sess.translated_text = "" →
        (applyStep (run [Step.start "en" "hi", Step.stop false])
          (Step.workerExit 0)).sess.translated_text = "Stopped.")
    ∧ ((run [Step.start "en" "hi", Step.stop false]).sess.translated_text ≠ "" →
        (applyStep (run [Step.start "en" "hi", Step.stop false])
          (Step.workerExit 0)).sess.translated_text =
            (run [Step.start "en" "hi", Step.stop false]).sess.translated_text) :=
  worker_clean_exit (run [Step.start "en" "hi", Step.stop false]) 0
    (by decide) (by decide)

/-- C6 counterexample: at clean exit with the listening banner still in
`latestText` (no terminal message was ever set), the code leaves the
banner in place instead of publishing "Stopped." — the check is for
emptiness, not for the absence of a terminal message. -/
theorem worker_clean_exit_claim_counterexample :
    (cleanExit
        { running := true, thread := some 0, stop_event := some 0,
          translated_text := "Listening... (SR: en-US, TR: en -> en)",
          source_lang := some "en", target_lang := some "en" }).translated_text =
      "Listening... (SR: en-US, TR: en -> en)"
    ∧ (cleanExit
        { running := true, thread := some 0, stop_event := some 0,
          translated_text := "Listening... (SR: en-US, TR: en -> en)",
          source_lang := some "en", target_lang := some "en" }).translated_text ≠
      "Stopped." := by
  decide

/-- C7 (amended): the normalizers first strip the input; lookup on the
stripped code is exact match, then lowercase retry, then the hard
default ("en-US" / "en"); they are total.  (On the raw input the claim
fails: a code that is unknown only because of surrounding whitespace is
still mapped — see the counterexample.) -/
theorem normalize_default_on_unknown (c : String) :
    (∀ v, dictGet SR_LANG_MAP (pyStrip c) = some v → normalize_sr_lang c = v)
    ∧ (dictGet SR_LANG_MAP (pyStrip c) = none →
        ∀ v, dictGet SR_LANG_MAP (pyLower (pyStrip c)) = some v →
          normalize_sr_lang c = v)
    ∧ (dictGet SR_LANG_MAP (pyStrip c) = none →
        dictGet SR_LANG_MAP (pyLower (pyStrip c)) = none →
          normalize_sr_lang c = "en-US")
    ∧ (∀ v, dictGet TR_LANG_MAP (pyStrip c) = some v → normalize_tr_lang c = v)
    ∧ (dictGet TR_LANG_MAP (pyStrip c) = none →
        ∀ v, dictGet TR_LANG_MAP (pyLower (pyStrip c)) = some v →
          normalize_tr_lang c = v)
    ∧ (dictGet TR_LANG_MAP (pyStrip c) = none →
        dictGet TR_LANG_MAP (pyLower (pyStrip c)) = none →
          normalize_tr_lang c = "en") := by
  refine ⟨?_, ?_, ?_, ?_, ?_, ?_⟩
  · intro v h
    simp [normalize_sr_lang, h]
  · intro h1 v h2
    simp [normalize_sr_lang, h1, h2]
  · intro h1 h2
    simp [normalize_sr_lang, h1, h2]
  · intro v h
    simp [normalize_tr_lang, h]
  · intro h1 v h2
    simp [normalize_tr_lang, h1, h2]
  · intro h1 h2
    simp [normalize_tr_lang, h1, h2]

/-- Witness for C7: the unknown code "fr" falls through both lookups and
gets both defaults. -/
theorem normalize_default_on_unknown_witness :
    normalize_sr_lang "fr" = "en-US" ∧ normalize_tr_lang "fr" = "en" :=
  ⟨(normalize_default_on_unknown "fr").2.2.1 (by decide) (by decide),
   (normalize_default_on_unknown "fr").2.2.2.2.2 (by decide) (by decide)⟩

/-- C7 counterexample: `" hi "` is neither a key of either table nor,
lowercased, a key — yet the normalizers return "hi-IN" / "hi", not the
defaults, because the code strips whitespace before looking up (a step
the claim omits). -/
theorem normalize_lang_counterexample :
    dictGet SR_LANG_MAP " hi " = none
    ∧ dictGet SR_LANG_MAP (pyLower " hi ") = none
    ∧ normalize_sr_lang " hi " = "hi-IN"
    ∧ normalize_sr_lang " hi " ≠ "en-US"
    ∧ dictGet TR_LANG_MAP " hi " = none
    ∧ dictGet TR_LANG_MAP (pyLower " hi ") = none
    ∧ normalize_tr_lang " hi " = "hi"
    ∧ normalize_tr_lang " hi " ≠ "en" := by
  decide

/-- C8: when the recognizer reports no intelligible speech the iteration
continues silently: the session (including `latestText`) is unchanged
and no error pause is taken (0 ms slept). -/
theorem unknown_speech_silent (exactTr fallbackTr : Except String String)
    (s : Sess) :
    workerIterate .audio .unknown exactTr fallbackTr s = (s, 0) := rfl

/-- C10: `stop` never touches `sourceLang` / `targetLang` (it resets
only `running`, the handles and `latestText`), so after `start(s, t)`
then `stop()`, `status` still reports the raw, un-normalized `s` and `t`
— not null. -/
theorem stop_preserves_langs (sys sys2 : Sys) (s t : String)
    (joinOk joinOk2 : Bool) (h : sys.sess.running = false) :
    ((stopOp joinOk2 sys2).1.sess.source_lang = sys2.sess.source_lang
     ∧ (stopOp joinOk2 sys2).1.sess.target_lang = sys2.sess.target_lang)
    ∧ ((statusOf (stopOp joinOk (startOp s t sys).1).1).sourceLang = some s
       ∧ (statusOf (stopOp joinOk (startOp s t sys).1).1).targetLang = some t
       ∧ (statusOf (stopOp joinOk (startOp s t sys).1).1).running = false) := by
  constructor
  · rcases hev : sys2.sess.stop_event with _ | i <;>
      rcases hth : sys2.sess.thread with _ | w <;>
        cases joinOk2 <;>
          cases hr : sys2.sess.running <;>
            simp only [stopOp, hr, hev, hth] <;>
              (try split_ifs) <;>
                simp_all [workerExitCore, cleanExit]
  · have hA : (startOp s t sys).1 =
        { sess :=
            { running := true,
              thread := some sys.nextId,
              stop_event := some sys.nextId,
              translated_text := "Starting speech recognition...",
              source_lang := some s,
              target_lang := some t },
          nextId := sys.nextId + 1,
          active := sys.nextId :: sys.active,
          setTokens := sys.setTokens } := by
      simp [startOp, h]
    rw [hA]
    cases joinOk <;> simp [stopOp, workerExitCore, cleanExit, statusOf]

/-- Appending one plain component to a path keeps it under that path. -/
theorem isUnder_append_singleton (l : List String) (x : String) :
    isUnder l (l ++ [x]) = true := by
  induction l with
  | nil => rfl
  | cons a as ih => simp [isUnder, ih]

/-- C9: a request whose resolved target escapes the serving root is
answered 403 and nothing is served; conversely anything served is a file
under the root whose suffix is on the allow-list. -/
theorem static_path_security (root fname : List String)
    (isFile : List String → Bool) :
    (isUnder root (resolveComps root fname) = false →
      serve_static_file root fname isFile = .forbidden)
    ∧ (∀ p, serve_static_file root fname isFile = .file p →
        isUnder root p = true ∧ isFile p = true
        ∧ ALLOWED_STATIC_EXTS.any (fun e => e = suffixOf (p.getLastD "")) = true) := by
  constructor
  · intro hout
    have hapi : ¬ (fname = ["start"] ∨ fname = ["stop"] ∨ fname = ["status"]) := by
      rintro (rfl | rfl | rfl) <;>
        simp [resolveComps, isUnder_append_singleton] at hout
    simp [serve_static_file, hapi, hout]
  · intro p hp
    by_cases hapi : fname = ["start"] ∨ fname = ["stop"] ∨ fname = ["status"]
    · rw [serve_static_file, if_pos hapi] at hp
      exact absurd hp (by simp)
    · rw [serve_static_file, if_neg hapi] at hp
      by_cases hu : isUnder root (resolveComps root fname) = true
      · rw [if_pos hu] at hp
        by_cases hcond : (isFile (resolveComps root fname)
            && ALLOWED_STATIC_EXTS.any
              (fun e => e = suffixOf ((resolveComps root fname).getLastD ""))) = true
        · rw [if_pos hcond] at hp
          obtain ⟨hf, ha⟩ := Bool.and_eq_true_iff.mp hcond
          cases hp
          exact ⟨hu, hf, ha⟩
        · rw [if_neg hcond] at hp
          exact absurd hp (by simp)
      · rw [if_neg hu] at hp
        exact absurd hp (by simp)

/-- Witness for C9: `../../etc/passwd` from `/home/proj` is rejected
with 403 even when the file exists, and a served `style.css` is under
the root with an allow-listed suffix. -/
theorem static_path_security_witness :
    serve_static_file ["home", "proj"] ["..", "..", "etc", "passwd"]
        (fun _ => true) = .forbidden
    ∧ (isUnder ["home", "proj"] ["home", "proj", "style.css"] = true
       ∧ (fun (_ : List String) => true) ["home", "proj", "style.css"] = true
       ∧ ALLOWED_STATIC_EXTS.any
           (fun e => e = suffixOf (["home", "proj", "style.css"].getLastD "")) =
         true) := by
  constructor
  · exact (static_path_security ["home", "proj"] ["..", "..", "etc", "passwd"]
      (fun _ => true)).1 (by decide)
  · exact (static_path_security ["home", "proj"] ["style.css"]
      (fun _ => true)).2 ["home", "proj", "style.css"] (by decide)

/-- Witness for C10: start with raw codes "zh-CN" / "GU", stop, and the
status snapshot still carries them verbatim. -/
theorem stop_preserves_langs_witness :
    ((stopOp false (run [Step.start "en" "hi"])).1.sess.source_lang =
        (run [Step.start "en" "hi"]).sess.source_lang
     ∧ (stopOp false (run [Step.start "en" "hi"])).1.sess.target_lang =
        (run [Step.start "en" "hi"]).sess.target_lang)
    ∧ ((statusOf (stopOp true (startOp "zh-CN" "GU" initSys).1).1).sourceLang =
        some "zh-CN"
       ∧ (statusOf (stopOp true (startOp "zh-CN" "GU" initSys).1).1).targetLang =
        some "GU"
       ∧ (statusOf (stopOp true (startOp "zh-CN" "GU" initSys).1).1).running =
        false) :=
  stop_preserves_langs initSys (run [Step.start "en" "hi"]) "zh-CN" "GU"
    true false (by decide)
